import Mathlib

/-!
Verification of the bounded-concurrency task pool (`simplePool`) and the
`get_video_comments` tool of the bilibili-comments-mcp repository
(source file `bilibili_mcp.js`), as a shallow embedding in Lean 4.

The JavaScript runtime is single-threaded with cooperative scheduling, so a
pool instance evolves by a sequence of atomic events:
  - a `sched` event: one call of the function returned by `simplePool`
    (push the task on the queue, then run `processQueue` once);
  - a `comp t o` event: the promise of the started task `t` finishes with
    outcome `o`, firing the `then`/`catch`/`finally` chain installed by
    `runTask` (settle the pool promise of `t` with the outcome the chain
    delivers, decrement `activeCount`, then run `processQueue` once).
Tasks are identified by their submission index. The state keeps, besides the
fields of the source (`queue`, `activeCount`, the fixed `concurrency`), the
observable histories: `running` (started but not yet settled), `started`
(start order) and `settledLog` (settlement order with outcomes).
-/

set_option linter.unusedVariables false

namespace SimplePool

/-- Outcome of an asynchronous task: the promise produced by `task.fn()`
either resolves with a value or rejects with a reason. Values and reasons are
opaque to the pool; we represent them by `Nat` and `String` payloads. -/
inductive Outcome where
  | ok : Nat → Outcome
  | err : String → Outcome
deriving DecidableEq, Repr

/-- The settlement that the `runTask` promise chain
`task.fn().then(res => task.resolve(res)).catch(err => task.reject(err))`
delivers to the promise returned by `schedule`, as a function of the outcome
of the task itself: a resolution is forwarded by `task.resolve`, a rejection
by `task.reject`. -/
def runTaskSettle : Outcome → Outcome
  | .ok v => .ok v
  | .err e => .err e

/-- State of one `simplePool` instance. `concurrency`, `queue` and
`activeCount` are the variables of the source; `running`, `started`,
`settledLog` record the observable history; `nextId` is the number of
schedule calls so far (task ids are submission indices). -/
structure PoolState where
  concurrency : Int
  queue : List Nat
  activeCount : Nat
  running : List Nat
  started : List Nat
  settledLog : List (Nat × Outcome)
  nextId : Nat
deriving DecidableEq, Repr

/-- The state of a freshly created pool: `const queue = []; let activeCount = 0;`. -/
def initState (limit : Int) : PoolState :=
  { concurrency := limit, queue := [], activeCount := 0, running := [],
    started := [], settledLog := [], nextId := 0 }

/-- `processQueue`: `if (activeCount < concurrency && queue.length > 0) {
const task = queue.shift(); runTask(task); }`. Starting a task
(`runTask`) increments `activeCount` and invokes `task.fn()`, so the task
becomes running and is appended to the start history. (The source tests the
counter bound and the non-emptiness of the queue in one condition; matching
on the queue first is the same function.) -/
def processQueue (s : PoolState) : PoolState :=
  match s.queue with
  | [] => s
  | t :: rest =>
    if (s.activeCount : Int) < s.concurrency then
      { s with queue := rest, activeCount := s.activeCount + 1,
               running := s.running ++ [t], started := s.started ++ [t] }
    else s

/-- The synchronous prefix of a schedule call: `queue.push({fn, resolve, reject})`.
The fresh task gets the next submission index. -/
def enqueueTask (s : PoolState) : PoolState :=
  { s with queue := s.queue ++ [s.nextId], nextId := s.nextId + 1 }

/-- One call of the function returned by `simplePool`:
push the task, then `processQueue()`. -/
def schedule (s : PoolState) : PoolState :=
  processQueue (enqueueTask s)

/-- The settlement part of the completion of running task `t` with outcome
`o`: the `then`/`catch` chain settles the pool promise of `t` with
`runTaskSettle o`, and the `finally` callback decrements `activeCount`. -/
def settleTask (s : PoolState) (t : Nat) (o : Outcome) : PoolState :=
  { s with running := s.running.erase t,
           settledLog := s.settledLog ++ [(t, runTaskSettle o)],
           activeCount := s.activeCount - 1 }

/-- The full completion event of task `t` with outcome `o`: only a running
task can complete (its promise settles once); the `finally` callback then
calls `processQueue()`. -/
def complete (s : PoolState) (t : Nat) (o : Outcome) : PoolState :=
  if t ∈ s.running then processQueue (settleTask s t o) else s

/-- The two kinds of events a pool instance observes. -/
inductive Event where
  | sched : Event
  | comp : Nat → Outcome → Event
deriving DecidableEq, Repr

/-- One event step. -/
def stepEv (s : PoolState) (e : Event) : PoolState :=
  match e with
  | .sched => schedule s
  | .comp t o => complete s t o

/-- The pool state after a sequence of events on a pool created with
`simplePool limit`. -/
def run (limit : Int) (es : List Event) : PoolState :=
  es.foldl stepEv (initState limit)

/-- Modelled from the spec: the body of the "Advance" loop — while
`activeCount < limit` and the queue is non-empty, dequeue the head, increment
`activeCount`, and begin executing it — with explicit fuel. Each iteration
shortens the queue by one and nothing is enqueued inside the loop, so fuel
equal to the queue length at entry makes the function agree with the
unbounded while loop. -/
def advanceAux : Nat → PoolState → PoolState
  | 0, s => s
  | Nat.succ k, s =>
    match s.queue with
    | [] => s
    | t :: rest =>
      if (s.activeCount : Int) < s.concurrency then
        advanceAux k { s with queue := rest, activeCount := s.activeCount + 1,
                              running := s.running ++ [t], started := s.started ++ [t] }
      else s

/-- Modelled from the spec: the full "Advance" step of the specified
algorithm. -/
def advance (s : PoolState) : PoolState := advanceAux s.queue.length s

/-- Inductive invariant of every reachable pool state. -/
structure Inv (s : PoolState) : Prop where
  activeEq : s.activeCount = s.running.length
  activeLe : (s.activeCount : Int) ≤ max s.concurrency 0
  fifo : s.started ++ s.queue = List.range s.nextId
  settledPerm : (s.settledLog.map Prod.fst ++ s.running).Perm s.started
  quiet : s.queue ≠ [] → s.concurrency ≤ (s.activeCount : Int)

end SimplePool

namespace BilibiliServer

/-- A comment author: `member.uname` and `member.level_info?.current_level`
(the level object may be absent). -/
structure Member where
  uname : String
  currentLevel : Option Nat
deriving DecidableEq, Repr

/-- A comment body: `content.message`. -/
structure Content where
  message : String
deriving DecidableEq, Repr

/-- A top-level comment as the orchestration reads it: `rpid`, `rcount`
(number of nested replies), `like`, `ctime`, author and body. -/
structure Comment where
  rpid : Nat
  rcount : Nat
  like : Nat
  ctime : Nat
  member : Member
  content : Content
deriving DecidableEq, Repr

/-- A nested (楼中楼) reply. -/
structure Reply where
  member : Member
  content : Content
  like : Nat
  ctime : Nat
deriving DecidableEq, Repr

/-- What `fetchReplies` hands back for one parent comment: it never rejects —
it returns the reply list ([] when the API answer has none) or the
string marker 'fetch_failed' on any error. -/
inductive RepliesResult where
  | items : List Reply → RepliesResult
  | fetchFailed : RepliesResult
deriving DecidableEq, Repr

/-- The `page` object of the comment API answer: `num`, `count`, `size`. -/
structure PageMeta where
  num : Option Nat
  count : Option Nat
  size : Option Nat
deriving DecidableEq, Repr

/-- `response.data.data` of `fetchComments`: page metadata, the hot comments
and the ordinary comments of the page. -/
structure ApiPage where
  page : Option PageMeta
  hots : Option (List Comment)
  replies : Option (List Comment)
deriving DecidableEq, Repr

/-- `response.data` of `fetchComments`: the platform status code, its
message, and the payload. -/
structure CommentsResp where
  code : Int
  message : String
  data : ApiPage
deriving DecidableEq, Repr

/-- The video info `getVideoInfo` extracts: `aid` and `title`. -/
structure VideoInfo where
  aid : Nat
  title : String
deriving DecidableEq, Repr

/-- The remote collaborators of one `getVideoComments` call, as black boxes:
the already-wrapped outcome of `getVideoInfo`, the already-wrapped network
outcome of `fetchComments`, and the per-rpid result of `fetchReplies`. -/
structure Api where
  videoInfo : Except String VideoInfo
  comments : Except String CommentsResp
  fetchReplies : Nat → RepliesResult

/-- Substring containment over character lists, the meaning of the host
string method `hay.includes(needle)` for a non-empty needle. -/
def containsSeq (needle : List Char) : List Char → Bool
  | [] => needle.isEmpty
  | c :: rest => needle.isPrefixOf (c :: rest) || containsSeq needle rest

/-- `validateCookie`: `cookie && typeof cookie === 'string' &&
cookie.includes('SESSDATA')`. `none` models an undefined cookie; the empty
string is falsy in the host language. -/
def validateCookie : Option String → Bool
  | none => false
  | some c => (!(c == "")) && containsSeq "SESSDATA".toList c.toList

/-- `const cookie = args.cookie || process.env.BILIBILI_COOKIE;` — the empty
string is falsy, so it falls through to the environment variable. -/
def effectiveCookie (argCookie envCookie : Option String) : Option String :=
  match argCookie with
  | some c => if c == "" then envCookie else some c
  | none => envCookie

/-- Truthiness of an optional string argument (`!bvid`, `!aid`). -/
def strTruthy : Option String → Bool
  | none => false
  | some s => !(s == "")

/-- The arguments object of the `get_video_comments` tool; absent properties
are `none` and take the destructuring defaults. -/
structure Args where
  bvid : Option String
  aid : Option String
  page : Option Int
  pageSize : Option Int
  sort : Option Int
  includeReplies : Option Bool
  cookie : Option String
deriving DecidableEq, Repr

/-- One item of an MCP tool answer (`{ type: "text", text: ... }`). -/
structure ContentItem where
  itemType : String
  text : String
deriving DecidableEq, Repr

/-- An MCP tool answer (`{ content: [...] }`). -/
structure ToolResult where
  content : List ContentItem
deriving DecidableEq, Repr

/-- Models the host date rendering `new Date(ctime * 1000).toLocaleString(...)`
as an executable stringification of the raw timestamp; no claim depends on
the concrete text produced here. -/
def formatTime (ctime : Nat) : String := toString ctime

/-- `_formatSingleCommentContent`. -/
def formatSingleCommentContent (c : Comment) : String :=
  let timeStr := formatTime c.ctime
  let userLevel := c.member.currentLevel.getD 0
  "**👤 " ++ c.member.uname ++ "** (Lv." ++ toString userLevel ++ ") | 👍 " ++
    toString c.like ++ " | 🕐 " ++ timeStr ++ "\n" ++
    "> " ++ (c.content.message.replace "\n" "\n> ") ++ "\n"

/-- `formatCommentWithReplies`: the main comment block followed by its nested
replies, the failure note, or nothing. -/
def formatCommentWithReplies (c : Comment) (replies : RepliesResult) : String :=
  let md := formatSingleCommentContent c
  let md := match replies with
    | .fetchFailed => md ++ "  ↳ ⚠️ *此评论的楼中楼回复加载失败，请稍后重试。*\n"
    | .items rs =>
      if 0 < rs.length then
        md ++ "\n**📝 楼中楼回复** (共 " ++ toString c.rcount ++ " 条，显示前 " ++
          toString rs.length ++ " 条):\n" ++
          String.join (rs.map fun r =>
            "  ↳ **" ++ r.member.uname ++ "**: " ++ r.content.message ++
              " *(👍" ++ toString r.like ++ " | " ++ formatTime r.ctime ++ ")*\n") ++
          (if rs.length < c.rcount then
            "  ↳ *...还有 " ++ toString (c.rcount - rs.length) ++ " 条回复*\n"
          else "")
      else md
  md ++ "\n---\n\n"

/-- The host `a?.b || d` idiom for numbers: an absent object and the value 0
are both falsy and give the default. -/
def orNat (x : Option Nat) (d : Nat) : Nat :=
  match x with
  | none => d
  | some v => if v = 0 then d else v

/-- `[...(pageInfo.hots || []), ...(pageInfo.replies || [])]`. -/
def allCommentsOf (p : ApiPage) : List Comment :=
  p.hots.getD [] ++ p.replies.getD []

/-- One entry of the `replyTasks` array: either a reply fetch submitted to
the pool through `limit(...)` (carrying the parent rpid it will query), or a
pre-resolved `Promise.resolve([])` that never touches the pool. -/
inductive ReplyTask where
  | pooled : Nat → ReplyTask
  | resolvedEmpty : ReplyTask
deriving DecidableEq, Repr

/-- Whether a reply task is a pool submission. -/
def isPooled : ReplyTask → Bool
  | .pooled _ => true
  | .resolvedEmpty => false

/-- The `replyTasks` array: with replies enabled, one pooled fetch per
comment with `rcount > 0` and a pre-resolved empty promise otherwise; with
replies disabled, pre-resolved empty promises throughout. -/
def buildReplyTasks (includeReplies : Bool) (cs : List Comment) : List ReplyTask :=
  if includeReplies then
    cs.map fun c => if 0 < c.rcount then .pooled c.rpid else .resolvedEmpty
  else
    cs.map fun _ => .resolvedEmpty

/-- `await Promise.all(replyTasks)`: the join-all resolves with the list of
each task's own result in task order; `fetchRep` is the per-rpid outcome of
the remote nested-replies fetch (it never rejects). -/
def awaitAll (fetchRep : Nat → RepliesResult) (ts : List ReplyTask) : List RepliesResult :=
  ts.map fun t =>
    match t with
    | .pooled rpid => fetchRep rpid
    | .resolvedEmpty => .items []

/-- `allComments.map((comment, index) => ({ comment, replies:
allReplies[index] || [] }))`: each comment is paired with the joined result
at its own index (an absent entry degrades to the empty list). -/
def commentWithReplies (cs : List Comment) (rs : List RepliesResult) :
    List (Comment × RepliesResult) :=
  cs.enum.map fun ci => (ci.2, rs.getD ci.1 (.items []))

/-- `generateMarkdownResponse`: page header, then — unless the page is empty
— the comment list rendered from the fully joined per-comment reply results,
and the footer. -/
def generateMarkdownResponse (p : ApiPage) (includeReplies : Bool)
    (fetchRep : Nat → RepliesResult) : String :=
  let currentPage := orNat (p.page.bind PageMeta.num) 1
  let totalCount := orNat (p.page.bind PageMeta.count) 0
  let pageSize := orNat (p.page.bind PageMeta.size) 20
  let totalPages := if 0 < pageSize then (totalCount + pageSize - 1) / pageSize else 1
  let md := "## 📺 B 站评论分析结果\n\n" ++
    "📄 **当前显示**: 第 " ++ toString currentPage ++ " / " ++ toString totalPages ++
    " 页\n" ++ "📊 **评论总数**: " ++ toString totalCount ++ " 条\n\n"
  let allComments := allCommentsOf p
  if allComments.length = 0 then
    md ++ "😴 **此页面没有评论。**\n\n" ++
      "✅ 分析完成。如果视频有更多评论，请尝试请求其他页面。"
  else
    let replyTasks := buildReplyTasks includeReplies allComments
    let allReplies := awaitAll fetchRep replyTasks
    let cwr := commentWithReplies allComments allReplies
    md ++ "### 💬 评论列表\n" ++
      String.join (cwr.map fun item => formatCommentWithReplies item.1 item.2) ++
      "---\n\n" ++ "✅ **成功加载第 " ++ toString currentPage ++ " 页的评论。**\n" ++
      (if currentPage < totalPages then
        "💡 如需浏览下一页 (第 " ++ toString (currentPage + 1) ++
          " 页), 请在下次请求时指定 `page: " ++ toString (currentPage + 1) ++ "`。"
      else "🏁 已到达最后一页。")

/-- The cookie validation error thrown by `getVideoComments`. -/
def cookieErrorMsg : String :=
  "必须提供有效的 B 站 Cookie。请通过参数传入或设置 BILIBILI_COOKIE 环境变量。"

/-- The platform error mapping of `getVideoComments` for a non-zero status
code. -/
def apiErrorMsg (code : Int) (message : String) : String :=
  if code = -101 then "账号未登录或 Cookie 已过期"
  else if code = -403 then "访问权限不足"
  else if code = -404 then "视频不存在或已被删除"
  else message

/-- The try-block of `getVideoComments`: destructuring defaults, cookie
resolution and the four validation gates in source order, the bvid-to-aid
conversion through `getVideoInfo` when only a bvid was given, the
`fetchComments` call, the status-code gate, and the markdown rendering.
A thrown error is the `Except.error` value. -/
def getVideoCommentsBody (env : Option String) (args : Args) (api : Api) :
    Except String String :=
  let pageSize := args.pageSize.getD 20
  let sort := args.sort.getD 0
  let includeReplies := args.includeReplies.getD true
  let cookie := effectiveCookie args.cookie env
  if !(validateCookie cookie) then .error cookieErrorMsg
  else if !(strTruthy args.bvid) && !(strTruthy args.aid) then
    .error "必须提供 bvid 或 aid 之一"
  else if pageSize < 1 || 49 < pageSize then .error "pageSize 必须在 1-49 之间"
  else if !(sort == 0) && !(sort == 1) then .error "sort 必须是 0 或 1"
  else
    match (if strTruthy args.bvid && !(strTruthy args.aid)
           then api.videoInfo.map (fun vi => toString vi.aid)
           else .ok (args.aid.getD "")) with
    | .error m => .error m
    | .ok _ =>
      match api.comments with
      | .error m => .error m
      | .ok resp =>
        if !(resp.code == 0) then
          .error ("B 站 API 错误 (" ++ toString resp.code ++ "): " ++
            apiErrorMsg resp.code resp.message)
        else
          .ok (generateMarkdownResponse resp.data includeReplies api.fetchReplies)

/-- The error banner of the catch-all handler. -/
def errorText (m : String) : String := "❌ 获取评论失败: " ++ m

/-- `getVideoComments` with its surrounding try/catch: a successful body
gives the markdown as the single text item, any thrown error gives the
banner text instead; the call itself never throws. -/
def getVideoComments (env : Option String) (args : Args) (api : Api) : ToolResult :=
  match getVideoCommentsBody env args api with
  | .ok md => { content := [{ itemType := "text", text := md }] }
  | .error m => { content := [{ itemType := "text", text := errorText m }] }

/-- The parameters and headers of the `fetchComments` request: `type`, `oid`,
`pn`, `ps` (clamped by `Math.min(pageSize, 49)`), `sort`, and the Cookie and
Referer headers. -/
structure CommentsRequest where
  oid : String
  pn : Int
  ps : Int
  sort : Int
  cookie : String
  referer : String
deriving DecidableEq, Repr

/-- Builds the `fetchComments` request exactly as the source does. -/
def mkCommentsRequest (oid : String) (page pageSize sort : Int)
    (cookie videoId : String) : CommentsRequest :=
  { oid := oid, pn := page, ps := min pageSize 49, sort := sort,
    cookie := cookie, referer := "https://www.bilibili.com/video/" ++ videoId }

/-- The `fetchComments` request a `getVideoComments` call issues, mirroring
the guards of the body: `none` when a validation gate or the `getVideoInfo`
conversion stops the call before the fetch. -/
def commentsRequestOf (env : Option String) (args : Args) (api : Api) :
    Option CommentsRequest :=
  let page := args.page.getD 1
  let pageSize := args.pageSize.getD 20
  let sort := args.sort.getD 0
  let cookie := effectiveCookie args.cookie env
  if !(validateCookie cookie) then none
  else if !(strTruthy args.bvid) && !(strTruthy args.aid) then none
  else if pageSize < 1 || 49 < pageSize then none
  else if !(sort == 0) && !(sort == 1) then none
  else
    let videoIdForRef :=
      if strTruthy args.bvid then args.bvid.getD "" else "av" ++ args.aid.getD ""
    match (if strTruthy args.bvid && !(strTruthy args.aid)
           then api.videoInfo.map (fun vi => toString vi.aid)
           else .ok (args.aid.getD "")) with
    | .error _ => none
    | .ok oid => some (mkCommentsRequest oid page pageSize sort (cookie.getD "") videoIdForRef)

/-- An empty comment page. -/
def emptyPage : ApiPage := { page := none, hots := none, replies := none }

/-- A successful comment answer carrying the empty page. -/
def resp0 : CommentsResp := { code := 0, message := "", data := emptyPage }

/-- A remote API that answers everything successfully with an empty comment
page. -/
def api0 : Api :=
  { videoInfo := .ok { aid := 170001, title := "t" },
    comments := .ok resp0,
    fetchReplies := fun _ => .items [] }

/-- Arguments with a non-empty cookie that lacks the SESSDATA marker. -/
def argsNoSess : Args :=
  { bvid := some "BV1xx411c7mD", aid := none, page := none, pageSize := none,
    sort := none, includeReplies := none, cookie := some "buvid3=abc" }

/-- The same arguments with a cookie containing the SESSDATA marker. -/
def argsSess : Args :=
  { bvid := some "BV1xx411c7mD", aid := none, page := none, pageSize := none,
    sort := none, includeReplies := none, cookie := some "SESSDATA=abc" }

/-- An empty arguments object. -/
def argsEmpty : Args :=
  { bvid := none, aid := none, page := none, pageSize := none,
    sort := none, includeReplies := none, cookie := none }

/-- Arguments with a valid cookie but an out-of-range pageSize. -/
def argsBadPageSize : Args :=
  { bvid := some "BV1xx411c7mD", aid := none, page := none, pageSize := some 0,
    sort := none, includeReplies := none, cookie := some "SESSDATA=abc" }

/-- The request `argsSess` leads to. -/
def reqSess : CommentsRequest :=
  mkCommentsRequest "170001" 1 20 0 "SESSDATA=abc" "BV1xx411c7mD"

/-- A comment that has nested replies. -/
def c0 : Comment :=
  { rpid := 1, rcount := 3, like := 0, ctime := 0,
    member := { uname := "u", currentLevel := none },
    content := { message := "m" } }

/-- A fetched page holding exactly the comment `c0`. -/
def pageOne : ApiPage := { page := none, hots := none, replies := some [c0] }

/-- An MCP answer holding a single text item. -/
def singleText (t : String) : ToolResult :=
  { content := [{ itemType := "text", text := t }] }

end BilibiliServer

namespace SimplePool

theorem inv_init (limit : Int) : Inv (initState limit) := by
  refine ⟨rfl, ?_, rfl, by simp [initState], by simp [initState]⟩
  simp [initState]

theorem inv_schedule (s : PoolState) (h : Inv s) : Inv (schedule s) := by
  cases hq : s.queue with
  | nil =>
    have hst : s.started = List.range s.nextId := by
      have := h.fifo; rw [hq] at this; simpa using this
    by_cases hc : (s.activeCount : Int) < s.concurrency
    · -- the queue was empty and a slot is free: the new task starts at once
      have hres : schedule s =
          { s with queue := [], activeCount := s.activeCount + 1,
                   running := s.running ++ [s.nextId],
                   started := s.started ++ [s.nextId],
                   nextId := s.nextId + 1 } := by
        simp [schedule, enqueueTask, processQueue, hq, hc]
      rw [hres]
      refine ⟨by simp [h.activeEq], ?_, ?_, ?_, by simp⟩
      · have := le_max_left s.concurrency (0 : Int)
        push_cast
        omega
      · simp [hst, List.range_succ]
      · have hp := h.settledPerm.append_right [s.nextId]
        simpa [List.append_assoc] using hp
    · -- no free slot: the new task stays queued
      have hres : schedule s =
          { s with queue := [s.nextId], nextId := s.nextId + 1 } := by
        simp [schedule, enqueueTask, processQueue, hq, hc]
      rw [hres]
      refine ⟨h.activeEq, h.activeLe, ?_, h.settledPerm, ?_⟩
      · simp [hst, List.range_succ]
      · intro _; dsimp only; omega
  | cons q qs =>
    -- the queue was non-empty, hence (invariant) no free slot: task queued
    have hfull : s.concurrency ≤ (s.activeCount : Int) := h.quiet (by simp [hq])
    have hc : ¬ (s.activeCount : Int) < s.concurrency := not_lt.mpr hfull
    have hres : schedule s =
        { s with queue := (q :: qs) ++ [s.nextId], nextId := s.nextId + 1 } := by
      simp [schedule, enqueueTask, processQueue, hq, hc]
    rw [hres]
    refine ⟨h.activeEq, h.activeLe, ?_, h.settledPerm, fun _ => hfull⟩
    have := h.fifo
    rw [hq] at this
    calc s.started ++ ((q :: qs) ++ [s.nextId])
        = (s.started ++ (q :: qs)) ++ [s.nextId] := by simp [List.append_assoc]
      _ = List.range s.nextId ++ [s.nextId] := by rw [this]
      _ = List.range (s.nextId + 1) := (List.range_succ s.nextId).symm

theorem inv_complete (s : PoolState) (t : Nat) (o : Outcome) (h : Inv s) :
    Inv (complete s t o) := by
  by_cases ht : t ∈ s.running
  · have hlen : (s.running.erase t).length = s.running.length - 1 :=
      List.length_erase_of_mem ht
    have hpos : 1 ≤ s.running.length := List.length_pos.mpr (by
      intro hnil; rw [hnil] at ht; exact absurd ht (by simp))
    have hact : 1 ≤ s.activeCount := by rw [h.activeEq]; exact hpos
    -- the permutation fact after moving t from running to the settled log
    have hperm1 : ((s.settledLog ++ [(t, runTaskSettle o)]).map Prod.fst ++
        s.running.erase t).Perm s.started := by
      have hre : s.running.Perm (t :: s.running.erase t) := List.perm_cons_erase ht
      have h1 : ((s.settledLog ++ [(t, runTaskSettle o)]).map Prod.fst ++
          s.running.erase t) = s.settledLog.map Prod.fst ++ (t :: s.running.erase t) := by
        simp [List.append_assoc]
      rw [h1]
      exact ((hre.append_left (s.settledLog.map Prod.fst)).symm).trans h.settledPerm
    cases hq : s.queue with
    | nil =>
      have hres : complete s t o =
          { s with running := s.running.erase t,
                   settledLog := s.settledLog ++ [(t, runTaskSettle o)],
                   activeCount := s.activeCount - 1 } := by
        simp [complete, ht, settleTask, processQueue, hq]
      rw [hres]
      refine ⟨by rw [h.activeEq, hlen], ?_, by simpa [hq] using h.fifo, hperm1, by simp [hq]⟩
      have := h.activeLe
      dsimp only
      omega
    | cons q qs =>
      have hfull : s.concurrency ≤ (s.activeCount : Int) := h.quiet (by simp [hq])
      have hcpos : (0 : Int) < s.concurrency ∨ s.concurrency ≤ 0 := by omega
      -- after the decrement a slot is free exactly when the limit is positive
      by_cases hc : ((s.activeCount - 1 : Nat) : Int) < s.concurrency
      · have hres : complete s t o =
            { s with queue := qs, activeCount := s.activeCount - 1 + 1,
                     running := s.running.erase t ++ [q],
                     started := s.started ++ [q],
                     settledLog := s.settledLog ++ [(t, runTaskSettle o)] } := by
          simp [complete, ht, settleTask, processQueue, hq, hc]
        rw [hres]
        refine ⟨?_, ?_, ?_, ?_, ?_⟩
        · simp [hlen, h.activeEq]
        · dsimp only
          have := le_max_left s.concurrency (0 : Int)
          omega
        · have := h.fifo
          rw [hq] at this
          calc (s.started ++ [q]) ++ qs = s.started ++ (q :: qs) := by
                simp [List.append_assoc]
            _ = List.range s.nextId := this
        · have h2 : ((s.settledLog ++ [(t, runTaskSettle o)]).map Prod.fst ++
              (s.running.erase t ++ [q])) =
              ((s.settledLog ++ [(t, runTaskSettle o)]).map Prod.fst ++
              s.running.erase t) ++ [q] := by simp [List.append_assoc]
          rw [h2]
          exact hperm1.append_right [q]
        · intro _; dsimp only; omega
      · have hres : complete s t o =
            { s with queue := q :: qs,
                     running := s.running.erase t,
                     settledLog := s.settledLog ++ [(t, runTaskSettle o)],
                     activeCount := s.activeCount - 1 } := by
          simp [complete, ht, settleTask, processQueue, hq, hc]
        rw [hres]
        refine ⟨by rw [h.activeEq, hlen], ?_, by simpa [hq] using h.fifo, hperm1, ?_⟩
        · dsimp only; have := h.activeLe; omega
        · intro _; dsimp only; omega
  · simpa [complete, ht] using h

theorem inv_stepEv (s : PoolState) (e : Event) (h : Inv s) : Inv (stepEv s e) := by
  cases e with
  | sched => exact inv_schedule s h
  | comp t o => exact inv_complete s t o h

theorem inv_foldl (es : List Event) :
    ∀ s : PoolState, Inv s → Inv (es.foldl stepEv s) := by
  induction es with
  | nil => intro s h; simpa using h
  | cons e es ih =>
    intro s h
    simpa using ih (stepEv s e) (inv_stepEv s e h)

theorem inv_run (limit : Int) (es : List Event) : Inv (run limit es) :=
  inv_foldl es (initState limit) (inv_init limit)

theorem run_append_one (limit : Int) (es : List Event) (e : Event) :
    run limit (es ++ [e]) = stepEv (run limit es) e := by
  simp [run, List.foldl_append]

/-- `processQueue` never touches the settlement log. -/
theorem processQueue_settledLog (s : PoolState) :
    (processQueue s).settledLog = s.settledLog := by
  unfold processQueue
  cases s.queue with
  | nil => rfl
  | cons t rest =>
    by_cases hc : (s.activeCount : Int) < s.concurrency <;> simp [hc]

/-- In every reachable state the start history is an initial segment of the
submission indices: the k-th started task is the k-th scheduled task. -/
theorem started_eq_range (s : PoolState) (h : Inv s) :
    s.started = List.range s.started.length := by
  have hpre : s.started <+: List.range s.nextId := ⟨s.queue, h.fifo⟩
  have hlen : s.started.length ≤ s.nextId := by
    have := congrArg List.length h.fifo
    simp at this
    omega
  have htake := List.prefix_iff_eq_take.mp hpre
  calc s.started = (List.range s.nextId).take s.started.length := htake
    _ = List.range (min s.started.length s.nextId) := List.take_range _ _
    _ = List.range s.started.length := by rw [min_eq_left hlen]

/-- `processQueue` never changes the concurrency limit. -/
theorem processQueue_concurrency (s : PoolState) :
    (processQueue s).concurrency = s.concurrency := by
  unfold processQueue
  cases s.queue with
  | nil => rfl
  | cons t rest =>
    by_cases hc : (s.activeCount : Int) < s.concurrency <;> simp [hc]

/-- Neither event changes the concurrency limit. -/
theorem stepEv_concurrency (s : PoolState) (e : Event) :
    (stepEv s e).concurrency = s.concurrency := by
  cases e with
  | sched =>
    show (schedule s).concurrency = _
    unfold schedule
    rw [processQueue_concurrency]
    rfl
  | comp t o =>
    show (complete s t o).concurrency = _
    unfold complete
    by_cases ht : t ∈ s.running
    · rw [if_pos ht, processQueue_concurrency]; rfl
    · rw [if_neg ht]

theorem foldl_concurrency (es : List Event) :
    ∀ s : PoolState, (es.foldl stepEv s).concurrency = s.concurrency := by
  induction es with
  | nil => intro s; rfl
  | cons e es ih =>
    intro s
    simpa [stepEv_concurrency s e] using ih (stepEv s e)

/-- The limit a pool is created with is the limit it keeps. -/
theorem run_concurrency (L : Int) (es : List Event) :
    (run L es).concurrency = L :=
  foldl_concurrency es (initState L)

/-- C1: for every concurrency limit L > 0 and every event sequence on a pool
created with that limit, the number of started-but-not-yet-settled tasks is
what `activeCount` counts and it never exceeds L. -/
theorem c1_activeCount_le_limit (L : Int) (es : List Event) (hL : 0 < L) :
    (run L es).activeCount = (run L es).running.length ∧
    ((run L es).activeCount : Int) ≤ L := by
  have h := inv_run L es
  refine ⟨h.activeEq, ?_⟩
  have h2 := h.activeLe
  rw [run_concurrency L es] at h2
  omega

/-- Closed witness for C1. -/
theorem c1_activeCount_le_limit_witness :
    (0 : Int) < 2 ∧
    ((run 2 [.sched, .sched, .sched]).activeCount =
      (run 2 [.sched, .sched, .sched]).running.length ∧
    ((run 2 [.sched, .sched, .sched]).activeCount : Int) ≤ 2) :=
  ⟨by decide, c1_activeCount_le_limit 2 [.sched, .sched, .sched] (by decide)⟩

/-- C2: tasks are started in exactly the order they were submitted, with none
skipped: after any event sequence the start history equals the list of the
first `started.length` submission indices in increasing order. -/
theorem c2_fifo_start_order (L : Int) (es : List Event) :
    (run L es).started = List.range (run L es).started.length :=
  started_eq_range (run L es) (inv_run L es)

/-- When no slot is free, `processQueue` starts nothing. -/
theorem processQueue_of_full (s : PoolState)
    (h : s.concurrency ≤ (s.activeCount : Int)) : processQueue s = s := by
  unfold processQueue
  cases hq : s.queue with
  | nil => rfl
  | cons t rest =>
    have hcc : ¬ (s.activeCount : Int) < s.concurrency := not_lt.mpr h
    simp [hcc]

/-- In every reachable state the settlement log holds each task at most once:
no pool promise ever settles twice. -/
theorem settled_nodup (s : PoolState) (h : Inv s) :
    (s.settledLog.map Prod.fst).Nodup := by
  have hs : s.started.Nodup := by
    rw [started_eq_range s h]
    exact List.nodup_range _
  have := (h.settledPerm.nodup_iff).mpr hs
  exact List.Nodup.of_append_left this

/-- C3: the promise returned by a schedule call settles at most once over any
event sequence, and when the task itself finishes, the promise settles right
then with the outcome the then/catch chain forwards, which is exactly the
task's own outcome (its resolution value, or its rejection reason). -/
theorem c3_settle_once_own_outcome (L : Int) (es : List Event) (t : Nat) (o : Outcome)
    (h : t ∈ (run L es).running) :
    ((run L es).settledLog.map Prod.fst).Nodup ∧
    (run L (es ++ [.comp t o])).settledLog = (run L es).settledLog ++ [(t, o)] ∧
    runTaskSettle o = o := by
  refine ⟨settled_nodup _ (inv_run L es), ?_, by cases o <;> rfl⟩
  rw [run_append_one]
  show (complete (run L es) t o).settledLog = _
  unfold complete
  rw [if_pos h, processQueue_settledLog]
  show (run L es).settledLog ++ [(t, runTaskSettle o)] = _
  cases o <;> rfl

/-- Closed witness for C3. -/
theorem c3_settle_once_own_outcome_witness :
    0 ∈ (run 1 [.sched]).running ∧
    (((run 1 [.sched]).settledLog.map Prod.fst).Nodup ∧
     (run 1 ([.sched] ++ [.comp 0 (.ok 7)])).settledLog =
       (run 1 [.sched]).settledLog ++ [(0, .ok 7)] ∧
     runTaskSettle (.ok 7) = .ok 7) :=
  ⟨by decide, c3_settle_once_own_outcome 1 [.sched] 0 (.ok 7) (by decide)⟩

/-- The scheduling fields of a `processQueue` result depend only on the
scheduling fields of the argument, not on the settlement log. -/
theorem processQueue_congr (s₁ s₂ : PoolState)
    (hq : s₁.queue = s₂.queue) (ha : s₁.activeCount = s₂.activeCount)
    (hc : s₁.concurrency = s₂.concurrency) (hr : s₁.running = s₂.running)
    (hs : s₁.started = s₂.started) :
    (processQueue s₁).queue = (processQueue s₂).queue ∧
    (processQueue s₁).activeCount = (processQueue s₂).activeCount ∧
    (processQueue s₁).running = (processQueue s₂).running ∧
    (processQueue s₁).started = (processQueue s₂).started := by
  have hq2 : s₂.queue = s₁.queue := hq.symm
  unfold processQueue
  cases hq1 : s₁.queue with
  | nil =>
    rw [hq1] at hq2
    simp [hq1, hq2, ha, hr, hs, hq]
  | cons t rest =>
    rw [hq1] at hq2
    simp only [hq1, hq2, ha, hc]
    by_cases hcc : (s₂.activeCount : Int) < s₂.concurrency
    · simp [hcc, ha, hr, hs]
    · simp [hcc, hq, ha, hr, hs, hq1, hq2]

/-- C4: a completion that fails settles only the failing task's own promise
(every other task's settlement record is untouched), and its effect on the
scheduling state — queue, active count, running set, start history — is
identical to that of a successful completion: the slot is freed and the queue
advances just the same. -/
theorem c4_failure_isolated (L : Int) (es : List Event) (t : Nat) (e : String) (v : Nat)
    (h : t ∈ (run L es).running) :
    (run L (es ++ [.comp t (.err e)])).settledLog
      = (run L es).settledLog ++ [(t, .err e)] ∧
    (∀ u, u ≠ t →
      ((run L (es ++ [.comp t (.err e)])).settledLog.filter (fun p => p.fst == u))
        = ((run L es).settledLog.filter (fun p => p.fst == u))) ∧
    (run L (es ++ [.comp t (.err e)])).queue
      = (run L (es ++ [.comp t (.ok v)])).queue ∧
    (run L (es ++ [.comp t (.err e)])).activeCount
      = (run L (es ++ [.comp t (.ok v)])).activeCount ∧
    (run L (es ++ [.comp t (.err e)])).running
      = (run L (es ++ [.comp t (.ok v)])).running ∧
    (run L (es ++ [.comp t (.err e)])).started
      = (run L (es ++ [.comp t (.ok v)])).started := by
  have hlog : (run L (es ++ [.comp t (.err e)])).settledLog
      = (run L es).settledLog ++ [(t, .err e)] := by
    rw [run_append_one]
    show (complete (run L es) t (.err e)).settledLog = _
    unfold complete
    rw [if_pos h, processQueue_settledLog]
    rfl
  refine ⟨hlog, ?_, ?_⟩
  · intro u hu
    rw [hlog, List.filter_append]
    have : ((t, Outcome.err e).fst == u) = false := by
      simp [Ne.symm hu]
    simp [this]
  · have he : run L (es ++ [.comp t (.err e)])
        = processQueue (settleTask (run L es) t (.err e)) := by
      rw [run_append_one]
      show complete (run L es) t (.err e) = _
      unfold complete
      rw [if_pos h]
    have ho : run L (es ++ [.comp t (.ok v)])
        = processQueue (settleTask (run L es) t (.ok v)) := by
      rw [run_append_one]
      show complete (run L es) t (.ok v) = _
      unfold complete
      rw [if_pos h]
    rw [he, ho]
    exact processQueue_congr _ _ rfl rfl rfl rfl rfl

/-- Closed witness for C4. -/
theorem c4_failure_isolated_witness :
    0 ∈ (run 1 [.sched, .sched]).running ∧
    ((run 1 ([.sched, .sched] ++ [.comp 0 (.err "network error")])).settledLog
      = (run 1 [.sched, .sched]).settledLog ++ [(0, .err "network error")] ∧
    (∀ u, u ≠ 0 →
      ((run 1 ([.sched, .sched] ++ [.comp 0 (.err "network error")])).settledLog.filter
          (fun p => p.fst == u))
        = ((run 1 [.sched, .sched]).settledLog.filter (fun p => p.fst == u))) ∧
    (run 1 ([.sched, .sched] ++ [.comp 0 (.err "network error")])).queue
      = (run 1 ([.sched, .sched] ++ [.comp 0 (.ok 3)])).queue ∧
    (run 1 ([.sched, .sched] ++ [.comp 0 (.err "network error")])).activeCount
      = (run 1 ([.sched, .sched] ++ [.comp 0 (.ok 3)])).activeCount ∧
    (run 1 ([.sched, .sched] ++ [.comp 0 (.err "network error")])).running
      = (run 1 ([.sched, .sched] ++ [.comp 0 (.ok 3)])).running ∧
    (run 1 ([.sched, .sched] ++ [.comp 0 (.err "network error")])).started
      = (run 1 ([.sched, .sched] ++ [.comp 0 (.ok 3)])).started) :=
  ⟨by decide, c4_failure_isolated 1 [.sched, .sched] 0 "network error" 3 (by decide)⟩

/-- On a state where the loop guard fails, the advance loop does nothing at
any fuel. -/
theorem advanceAux_of_quiet (k : Nat) (s : PoolState)
    (h : s.queue ≠ [] → s.concurrency ≤ (s.activeCount : Int)) :
    advanceAux k s = s := by
  cases k with
  | zero => rfl
  | succ k =>
    unfold advanceAux
    cases hq : s.queue with
    | nil => simp
    | cons t rest =>
      have hcc : ¬ (s.activeCount : Int) < s.concurrency :=
        not_lt.mpr (h (by simp [hq]))
      simp [hcc]

/-- When one `processQueue` call already restores the guard-failure state,
the advance loop computes exactly `processQueue`. -/
theorem advance_eq_processQueue (s : PoolState)
    (h : (processQueue s).queue ≠ [] →
      (processQueue s).concurrency ≤ ((processQueue s).activeCount : Int)) :
    advance s = processQueue s := by
  cases hq : s.queue with
  | nil =>
    show advanceAux s.queue.length s = processQueue s
    unfold processQueue
    rw [hq]
    simp [advanceAux]
  | cons t rest =>
    by_cases hcc : (s.activeCount : Int) < s.concurrency
    · have hpq : processQueue s =
          { s with queue := rest, activeCount := s.activeCount + 1,
                   running := s.running ++ [t], started := s.started ++ [t] } := by
        unfold processQueue
        rw [hq]
        simp [hcc]
      show advanceAux s.queue.length s = processQueue s
      rw [hq]
      show advanceAux (rest.length + 1) s = processQueue s
      unfold advanceAux
      rw [hq]
      simp only [hcc, if_true]
      rw [← hpq]
      exact advanceAux_of_quiet rest.length (processQueue s) h
    · have hpq : processQueue s = s := by
        unfold processQueue
        rw [hq]
        simp [hcc]
      rw [hpq]
      show advanceAux s.queue.length s = s
      rw [hq]
      show advanceAux (rest.length + 1) s = s
      unfold advanceAux
      rw [hq]
      simp [hcc]

/-- C5: over every reachable pool state, the specification's multi-step
advance loop and the implementation's single-dequeue `processQueue` agree at
both call sites: right after a task is enqueued by a schedule call, and right
after a completion settles a running task and frees its slot. -/
theorem c5_advance_refines_processQueue (L : Int) (es : List Event) (t : Nat) (o : Outcome)
    (ht : t ∈ (run L es).running) :
    advance (enqueueTask (run L es)) = processQueue (enqueueTask (run L es)) ∧
    advance (settleTask (run L es) t o) = processQueue (settleTask (run L es) t o) := by
  have h := inv_run L es
  constructor
  · apply advance_eq_processQueue
    exact (inv_schedule (run L es) h).quiet
  · apply advance_eq_processQueue
    have hc : complete (run L es) t o = processQueue (settleTask (run L es) t o) := by
      unfold complete
      rw [if_pos ht]
    have hinv := inv_complete (run L es) t o h
    rw [hc] at hinv
    exact hinv.quiet

/-- Closed witness for C5. -/
theorem c5_advance_refines_processQueue_witness :
    0 ∈ (run 2 [.sched, .sched, .sched]).running ∧
    (advance (enqueueTask (run 2 [.sched, .sched, .sched]))
      = processQueue (enqueueTask (run 2 [.sched, .sched, .sched])) ∧
    advance (settleTask (run 2 [.sched, .sched, .sched]) 0 (.ok 1))
      = processQueue (settleTask (run 2 [.sched, .sched, .sched]) 0 (.ok 1))) :=
  ⟨by decide, c5_advance_refines_processQueue 2 [.sched, .sched, .sched] 0 (.ok 1) (by decide)⟩

/-- C6: with limit L at least the task count T, every one of T consecutive
schedule calls on a fresh pool starts its task during the call itself: after
the k-th call the first k tasks have all started and the queue is empty. -/
theorem c6_all_start_immediately (L : Int) (T k : Nat)
    (hT : 1 ≤ T) (hTL : (T : Int) ≤ L) (hk : k ≤ T) :
    run L (List.replicate k .sched) =
      { concurrency := L, queue := [], activeCount := k,
        running := List.range k, started := List.range k,
        settledLog := [], nextId := k } := by
  induction k with
  | zero => simp [run, initState]
  | succ k ih =>
    have hk2 : k ≤ T := Nat.le_of_succ_le hk
    have hrep : List.replicate (k + 1) Event.sched
        = List.replicate k Event.sched ++ [Event.sched] :=
      List.replicate_succ' k Event.sched
    rw [hrep, run_append_one, ih hk2]
    show schedule _ = _
    have hguard : ((k : Nat) : Int) < L := by
      have : ((k : Nat) : Int) + 1 ≤ (T : Int) := by exact_mod_cast hk
      omega
    simp [schedule, enqueueTask, processQueue, hguard, List.range_succ]

/-- Closed witness for C6. -/
theorem c6_all_start_immediately_witness :
    1 ≤ 2 ∧ ((2 : Nat) : Int) ≤ 2 ∧ 2 ≤ 2 ∧
    run 2 (List.replicate 2 .sched) =
      { concurrency := 2, queue := [], activeCount := 2,
        running := List.range 2, started := List.range 2,
        settledLog := [], nextId := 2 } :=
  ⟨by decide, by decide, by decide,
    c6_all_start_immediately 2 2 2 (by decide) (by decide) (by decide)⟩

/-- A pool with non-positive limit never changes anything but its queue. -/
theorem frozen_foldl (es : List Event) :
    ∀ s : PoolState, s.concurrency ≤ 0 → s.started = [] → s.settledLog = [] →
      s.running = [] → s.activeCount = 0 → s.queue = List.range s.nextId →
    (es.foldl stepEv s).started = [] ∧ (es.foldl stepEv s).settledLog = [] ∧
    (es.foldl stepEv s).running = [] ∧ (es.foldl stepEv s).activeCount = 0 ∧
    (es.foldl stepEv s).queue = List.range (es.foldl stepEv s).nextId := by
  induction es with
  | nil => intro s _ h1 h2 h3 h4 h5; exact ⟨h1, h2, h3, h4, h5⟩
  | cons e es ih =>
    intro s hL h1 h2 h3 h4 h5
    cases e with
    | sched =>
      have hres : stepEv s .sched =
          { s with queue := s.queue ++ [s.nextId], nextId := s.nextId + 1 } := by
        show schedule s = _
        unfold schedule
        apply processQueue_of_full
        show s.concurrency ≤ ((enqueueTask s).activeCount : Int)
        rw [show (enqueueTask s).activeCount = s.activeCount from rfl, h4]
        simpa using hL
      rw [List.foldl_cons, hres]
      exact ih _ hL h1 h2 h3 h4 (by simp [h5, List.range_succ])
    | comp t o =>
      have hres : stepEv s (.comp t o) = s := by
        show complete s t o = s
        unfold complete
        rw [if_neg (by rw [h3]; simp)]
      rw [List.foldl_cons, hres]
      exact ih _ hL h1 h2 h3 h4 h5

/-- C7: with a non-positive concurrency limit no task ever starts, no pool
promise ever settles, and every scheduled task stays in the queue, which
therefore holds all submission indices. -/
theorem c7_nonpositive_limit_no_start (L : Int) (es : List Event) (hL : L ≤ 0) :
    (run L es).started = [] ∧ (run L es).settledLog = [] ∧
    (run L es).running = [] ∧
    (run L es).queue = List.range (run L es).nextId := by
  have h := frozen_foldl es (initState L) hL rfl rfl rfl rfl rfl
  exact ⟨h.1, h.2.1, h.2.2.1, h.2.2.2.2⟩

/-- Closed witness for C7. -/
theorem c7_nonpositive_limit_no_start_witness :
    (0 : Int) ≤ 0 ∧
    ((run 0 [.sched, .sched]).started = [] ∧
     (run 0 [.sched, .sched]).settledLog = [] ∧
     (run 0 [.sched, .sched]).running = [] ∧
     (run 0 [.sched, .sched]).queue = List.range (run 0 [.sched, .sched]).nextId) :=
  ⟨by decide, c7_nonpositive_limit_no_start 0 [.sched, .sched] (by decide)⟩

end SimplePool

namespace BilibiliServer

/-- A cookie gate that passed produced an actual string. -/
theorem validateCookie_eq_some (oc : Option String) (h : validateCookie oc = true) :
    oc = some (oc.getD "") := by
  cases oc with
  | none => simp [validateCookie] at h
  | some c => rfl

/-- C8 as stated is false on the code: with the same environment and the
same remote answers, a request whose cookie is a non-empty string without
the SESSDATA marker is rejected by the cookie gate, while one containing the
marker is answered — the system does inspect the content of the credential
and rejects requests based on it. -/
theorem c8_counterexample :
    getVideoComments none argsNoSess api0
      = { content := [{ itemType := "text", text := errorText cookieErrorMsg }] } ∧
    getVideoComments none argsSess api0
      ≠ { content := [{ itemType := "text", text := errorText cookieErrorMsg }] } := by
  constructor
  · rfl
  · decide

/-- C8 (amended): the system performs no authentication beyond one shallow
content gate — when the effective cookie fails `validateCookie` (absent,
empty, or lacking the substring SESSDATA) the call is rejected with the
cookie error; whenever the comment-fetch request is issued, the cookie it
carries is exactly the caller's effective cookie string, passed through
unchanged. -/
theorem c8_cookie_gate_and_passthrough (env : Option String) (args : Args) (api : Api) :
    (validateCookie (effectiveCookie args.cookie env) = false →
      getVideoComments env args api
        = { content := [{ itemType := "text", text := errorText cookieErrorMsg }] }) ∧
    (∀ req : CommentsRequest, commentsRequestOf env args api = some req →
      some req.cookie = effectiveCookie args.cookie env) := by
  constructor
  · intro h
    simp [getVideoComments, getVideoCommentsBody, h]
  · intro req hreq
    simp only [commentsRequestOf] at hreq
    split at hreq
    · exact absurd hreq (by simp)
    · next hgate =>
      have hv : validateCookie (effectiveCookie args.cookie env) = true := by
        simpa using hgate
      split at hreq
      · exact absurd hreq (by simp)
      · split at hreq
        · exact absurd hreq (by simp)
        · split at hreq
          · exact absurd hreq (by simp)
          · split at hreq
            · exact absurd hreq (by simp)
            · next oid hok =>
              have hcook : (mkCommentsRequest oid (args.page.getD 1)
                  (args.pageSize.getD 20) (args.sort.getD 0)
                  ((effectiveCookie args.cookie env).getD "")
                  (if strTruthy args.bvid = true then args.bvid.getD ""
                   else "av" ++ args.aid.getD "")).cookie
                  = (effectiveCookie args.cookie env).getD "" := rfl
              have hreq2 : req.cookie = (effectiveCookie args.cookie env).getD "" := by
                have := hreq
                injection this with h2
                rw [← h2, hcook]
              rw [hreq2]
              exact (validateCookie_eq_some _ hv).symm

/-- Closed witness for the amended C8. -/
theorem c8_cookie_gate_and_passthrough_witness :
    getVideoComments none argsNoSess api0
      = { content := [{ itemType := "text", text := errorText cookieErrorMsg }] } ∧
    some reqSess.cookie = effectiveCookie argsSess.cookie none := by
  constructor
  · exact (c8_cookie_gate_and_passthrough none argsNoSess api0).1 (by decide)
  · exact (c8_cookie_gate_and_passthrough none argsSess api0).2 reqSess (by decide)

/-- C9 as stated is false on the code: when reply inclusion is disabled, a
fetched page holding a comment with nested replies leads to no pool
submission at all. -/
theorem c9_counterexample :
    (allCommentsOf pageOne).countP (fun c => decide (0 < c.rcount)) = 1 ∧
    (buildReplyTasks false (allCommentsOf pageOne)).countP isPooled = 0 := by
  constructor <;> decide

/-- C9 (amended): when reply inclusion is enabled (its default), the
orchestration builds, per fetched page, exactly one pooled reply-fetch task
per top-level comment with nested replies and none for the others, the
join-all returns one result per comment, and each comment is paired with the
result of its own reply fetch — the one keyed by its own rpid — at its own
index. -/
theorem c9_per_comment_reply_join (p : ApiPage) (fetchRep : Nat → RepliesResult)
    (i : Nat) (hi : i < (allCommentsOf p).length) :
    (buildReplyTasks true (allCommentsOf p)).length = (allCommentsOf p).length ∧
    (buildReplyTasks true (allCommentsOf p)).countP isPooled
      = (allCommentsOf p).countP (fun c => decide (0 < c.rcount)) ∧
    (buildReplyTasks true (allCommentsOf p)).getD i .resolvedEmpty
      = (if 0 < ((allCommentsOf p).get ⟨i, hi⟩).rcount
         then .pooled ((allCommentsOf p).get ⟨i, hi⟩).rpid else .resolvedEmpty) ∧
    (awaitAll fetchRep (buildReplyTasks true (allCommentsOf p))).length
      = (allCommentsOf p).length ∧
    (commentWithReplies (allCommentsOf p)
        (awaitAll fetchRep (buildReplyTasks true (allCommentsOf p)))).getD i
        ((allCommentsOf p).get ⟨i, hi⟩, .items [])
      = ((allCommentsOf p).get ⟨i, hi⟩,
         if 0 < ((allCommentsOf p).get ⟨i, hi⟩).rcount
         then fetchRep ((allCommentsOf p).get ⟨i, hi⟩).rpid else .items []) := by
  refine ⟨by simp [buildReplyTasks], ?_, ?_, by simp [awaitAll, buildReplyTasks], ?_⟩
  · simp only [buildReplyTasks, if_pos trivial]
    rw [List.countP_map]
    apply List.countP_congr
    intro c hc
    by_cases h : 0 < c.rcount <;> simp [h, isPooled, Function.comp]
  · simp [buildReplyTasks, List.getD_eq_getElem?_getD, List.getElem?_map,
      List.getElem?_eq_getElem hi, List.get_eq_getElem]
  · simp [commentWithReplies, awaitAll, buildReplyTasks,
      List.getD_eq_getElem?_getD, List.getElem?_map, List.getElem?_enum,
      List.getElem?_eq_getElem hi, List.get_eq_getElem]
    by_cases h : 0 < ((allCommentsOf p).get ⟨i, hi⟩).rcount <;>
      simp [List.get_eq_getElem] at h <;> simp [h]

/-- Closed witness for the amended C9. -/
theorem c9_per_comment_reply_join_witness :
    0 < (allCommentsOf pageOne).length ∧
    ((buildReplyTasks true (allCommentsOf pageOne)).length
        = (allCommentsOf pageOne).length ∧
    (buildReplyTasks true (allCommentsOf pageOne)).countP isPooled
      = (allCommentsOf pageOne).countP (fun c => decide (0 < c.rcount)) ∧
    (buildReplyTasks true (allCommentsOf pageOne)).getD 0 .resolvedEmpty
      = (if 0 < ((allCommentsOf pageOne).get ⟨0, by decide⟩).rcount
         then .pooled ((allCommentsOf pageOne).get ⟨0, by decide⟩).rpid
         else .resolvedEmpty) ∧
    (awaitAll (fun _ => .items []) (buildReplyTasks true (allCommentsOf pageOne))).length
      = (allCommentsOf pageOne).length ∧
    (commentWithReplies (allCommentsOf pageOne)
        (awaitAll (fun _ => .items [])
          (buildReplyTasks true (allCommentsOf pageOne)))).getD 0
        ((allCommentsOf pageOne).get ⟨0, by decide⟩, .items [])
      = ((allCommentsOf pageOne).get ⟨0, by decide⟩,
         if 0 < ((allCommentsOf pageOne).get ⟨0, by decide⟩).rcount
         then (fun _ => RepliesResult.items []) ((allCommentsOf pageOne).get ⟨0, by decide⟩).rpid
         else .items [])) :=
  ⟨by decide, c9_per_comment_reply_join pageOne (fun _ => .items []) 0 (by decide)⟩

/-- C10: the tool operation is total — for every environment, arguments
object and remote behaviour it returns a result with exactly one item, that
item is a text item, a failing step surfaces as the banner text
"❌ 获取评论失败: " followed by the thrown message while a successful run
returns the markdown; in particular a call without any cookie fails with the
cookie message and a call with pageSize 0 fails with the pageSize message,
whatever the remote does. -/
theorem c10_single_text_error_wrapped (env : Option String) (args : Args) (api : Api) :
    (getVideoComments env args api).content.length = 1 ∧
    (getVideoComments env args api).content.map ContentItem.itemType = ["text"] ∧
    getVideoComments env args api =
      singleText (match getVideoCommentsBody env args api with
        | .ok md => md
        | .error m => errorText m) ∧
    getVideoCommentsBody none argsEmpty api = .error cookieErrorMsg ∧
    getVideoCommentsBody none argsBadPageSize api = .error "pageSize 必须在 1-49 之间" := by
  refine ⟨?_, ?_, ?_, rfl, rfl⟩ <;>
    cases hb : getVideoCommentsBody env args api <;>
      simp [getVideoComments, singleText, hb]

end BilibiliServer
